import Mathlib

/-!
Verification of the streaming filter/export pipeline of the
Telegram-SavedMessages-Export repository (shallow embedding of
`telegram_to_notion.py` and `telegram_notion_gui.py`).

Modelling conventions:
* Python strings are Lean `String`s; `None` is `Option.none`; Python
  truthiness of an optional string (`if message.text:`) is "present and
  non-empty".
* Timestamps (`message.date`) are naive instants modelled as `Int`
  (seconds); `datetime.isoformat` is an injective rendering and is
  modelled by the instant itself / its decimal rendering.
* `re.search(pattern, text, IGNORECASE)` for the user-supplied word
  pattern is a pure function of the pattern and the text; it is modelled
  by an opaque-to-us but fixed predicate `String → Bool` stored in the
  filter record (the pattern itself never changes during a run).
* The two URL regexes and the hashtag regex are modelled as explicit
  left-to-right scanners with the same match semantics (literal prefix,
  then a maximal non-empty run of characters from the class); character
  classes are the ASCII reading of the patterns.
-/

/-- Normalized history record, as far as the exporter inspects it:
identifier, date, attachment presence flags, text and caption. -/
structure Message where
  id : Int
  date : Int
  photo : Bool
  video : Bool
  document : Bool
  audio : Bool
  voice : Bool
  sticker : Bool
  animation : Bool
  poll : Bool
  location : Bool
  contact : Bool
  text : Option String
  caption : Option String
deriving DecidableEq, Repr

/-- Python truthiness of an optional string: present and non-empty. -/
def optTruthy : Option String → Bool
  | none => false
  | some s => s ≠ ""

/-- Value of `message.text or message.caption or ""`. -/
def effText (m : Message) : String :=
  match m.text with
  | some s => if s ≠ "" then s else match m.caption with
      | some c => if c ≠ "" then c else ""
      | none => ""
  | none => match m.caption with
      | some c => if c ≠ "" then c else ""
      | none => ""

/-- Embedding of `get_message_type` (telegram_to_notion.py, lines 177-202):
first-match cascade over the attachment fields. -/
def get_message_type (m : Message) : String :=
  if m.photo then "Photo"
  else if m.video then "Video"
  else if m.document then "Document"
  else if m.audio then "Audio"
  else if m.voice then "Voice"
  else if m.sticker then "Sticker"
  else if m.animation then "GIF"
  else if m.poll then "Poll"
  else if m.location then "Location"
  else if m.contact then "Contact"
  else if optTruthy m.text then "Text"
  else "Other"

/-- Embedding of `ExportWorker._get_message_type`
(telegram_notion_gui.py, lines 313-337); textually the same cascade. -/
def ExportWorker_get_message_type (m : Message) : String :=
  if m.photo then "Photo"
  else if m.video then "Video"
  else if m.document then "Document"
  else if m.audio then "Audio"
  else if m.voice then "Voice"
  else if m.sticker then "Sticker"
  else if m.animation then "GIF"
  else if m.poll then "Poll"
  else if m.location then "Location"
  else if m.contact then "Contact"
  else if optTruthy m.text then "Text"
  else "Other"

/-- Ordered rule table of the specification's kind classification
(spec section 4.2): attachment flag paired with the reported kind, in the
spec's exact order; `Text` guarded by truthiness of the raw text field. -/
def kindRules (m : Message) : List (Bool × String) :=
  [(m.photo, "Photo"), (m.video, "Video"), (m.document, "Document"),
   (m.audio, "Audio"), (m.voice, "Voice"), (m.sticker, "Sticker"),
   (m.animation, "GIF"), (m.poll, "Poll"), (m.location, "Location"),
   (m.contact, "Contact"), (optTruthy m.text, "Text")]

/-- Specification-side classifier: first rule whose flag holds wins,
default `Other` (spec section 4.2, written from the spec's words for the
refinement comparison). -/
def specKindClassifier (m : Message) : String :=
  ((kindRules m).find? (fun r => r.1)).elim "Other" (fun r => r.2)

/-- Character class of the export URL pattern
`http[s]?://(?:[a-zA-Z]|[0-9]|[$-_@.&+]|[!*\(\),]|(?:%hh))+` used by both
`extract_urls` (CLI) and `ExportWorker._extract_urls` (GUI): as a set of
ASCII codes this union is 33, 36-95 and 97-122. -/
def isUrlChar (c : Char) : Bool :=
  c.toNat == 33 || (36 ≤ c.toNat && c.toNat ≤ 95) ||
    (97 ≤ c.toNat && c.toNat ≤ 122)

/-- ASCII reading of the regex class `\S` (not a whitespace character)
used by the GUI has_url filter pattern `https?://\S+`. -/
def isNonSpaceChar (c : Char) : Bool :=
  !(c.toNat == 32 || c.toNat == 9 || c.toNat == 10 || c.toNat == 13 ||
    c.toNat == 12 || c.toNat == 11)

/-- Attempt of the regex `http[s]?://C+` (for a character class `p`) at the
current position: literal prefix, then a maximal non-empty run of class
characters; returns the match and the remainder of the input. -/
def matchHttpAt (p : Char → Bool) (l : List Char) : Option (List Char × List Char) :=
  if l.take 8 = ['h', 't', 't', 'p', 's', ':', '/', '/'] then
    if (l.drop 8).takeWhile p = [] then none
    else some (l.take 8 ++ (l.drop 8).takeWhile p, (l.drop 8).dropWhile p)
  else if l.take 7 = ['h', 't', 't', 'p', ':', '/', '/'] then
    if (l.drop 7).takeWhile p = [] then none
    else some (l.take 7 ++ (l.drop 7).takeWhile p, (l.drop 7).dropWhile p)
  else none

/-- Left-to-right `re.findall` scan for `http[s]?://C+`: on a match resume
after it, otherwise advance one character; fuel bounds the recursion and
is instantiated with the input length, which every call site preserves. -/
def findallHttp (p : Char → Bool) : Nat → List Char → List String
  | 0, _ => []
  | _ + 1, [] => []
  | fuel + 1, c :: rest =>
    match matchHttpAt p (c :: rest) with
    | some (mt, rest2) => String.mk mt :: findallHttp p fuel rest2
    | none => findallHttp p fuel rest

/-- Python `\w` over ASCII: letters, digits and underscore. -/
def isWordChar (c : Char) : Bool :=
  c.isAlphanum || c == '_'

/-- Left-to-right `re.findall` scan for `#(\w+)`: at a `#` followed by at
least one word character, capture the maximal word run and resume after
it; otherwise advance one character. -/
def findallHashtags : Nat → List Char → List String
  | 0, _ => []
  | _ + 1, [] => []
  | fuel + 1, c :: rest =>
    if c = '#' then
      if rest.takeWhile isWordChar = [] then findallHashtags fuel rest
      else String.mk (rest.takeWhile isWordChar) ::
        findallHashtags fuel (rest.dropWhile isWordChar)
    else findallHashtags fuel rest

/-- Embedding of `extract_urls` (telegram_to_notion.py, lines 162-167). -/
def extract_urls (text : String) : List String :=
  if text = "" then [] else findallHttp isUrlChar text.data.length text.data

/-- Embedding of `ExportWorker._extract_urls`
(telegram_notion_gui.py, lines 339-343); same pattern as the CLI one. -/
def ExportWorker_extract_urls (text : String) : List String :=
  if text = "" then [] else findallHttp isUrlChar text.data.length text.data

/-- Embedding of the GUI has_url filter probe
`re.findall(r'https?://\S+', text)` (telegram_notion_gui.py, line 297). -/
def ExportWorker_url_filter_findall (text : String) : List String :=
  findallHttp isNonSpaceChar text.data.length text.data

/-- Embedding of `extract_hashtags` (telegram_to_notion.py, lines 170-174). -/
def extract_hashtags (text : String) : List String :=
  if text = "" then [] else findallHashtags text.data.length text.data

/-- Embedding of `ExportWorker._extract_hashtags`
(telegram_notion_gui.py, lines 345-349). -/
def ExportWorker_extract_hashtags (text : String) : List String :=
  if text = "" then [] else findallHashtags text.data.length text.data

/-- CLI filter arguments (the fields of `args` read by
`message_matches_filters`). `word` models the case-insensitive regex
search compiled from `args.word` as a fixed pure predicate on the text;
`none` stands for an unset (or empty, hence falsy) pattern. Unset list
filters are empty lists (argparse yields `None` or a non-empty list);
`days`, `after`, `before` are `none` when unset, with parsed date
strings modelled by the instant they denote. -/
structure Args where
  word : Option (String → Bool)
  hashtag : List String
  type : List String
  days : Option Int
  after : Option Int
  before : Option Int
  has_url : Bool
  has_media : Bool
  no_media : Bool
  limit : Option Nat
  skip : Nat

/-- Embedding of `message_matches_filters` (telegram_to_notion.py,
lines 481-542): the early-return chain of filter clauses. `now` is the
value of `datetime.now()` at evaluation time; the source consults it
inside the `--days` clause only. -/
def message_matches_filters (m : Message) (a : Args) (now : Int) : Bool :=
  let text := effText m
  let msg_type := get_message_type m
  if (match a.word with | some p => !(p text) | none => false) then false
  else if (!a.hashtag.isEmpty &&
      !((a.hashtag.map String.toLower).any
        (fun t => ((extract_hashtags text).map String.toLower).contains t)))
    then false
  else if (!a.type.isEmpty && !(a.type.contains msg_type)) then false
  else if (match a.days with
      | some d => d != 0 && decide (m.date < now - d * 86400)
      | none => false) then false
  else if (match a.after with
      | some ad => decide (m.date < ad)
      | none => false) then false
  else if (match a.before with
      | some bd => decide (bd < m.date)
      | none => false) then false
  else if (a.has_url && (extract_urls text).isEmpty) then false
  else if (a.has_media && (msg_type == "Text" || msg_type == "Other"))
    then false
  else if (a.no_media && msg_type != "Text") then false
  else true

/-- GUI filter record (the keys of `self.filters` read by
`ExportWorker._matches_filters`); same conventions as `Args`. There is
no skip field: the GUI pipeline has none. -/
structure GuiFilters where
  word : Option (String → Bool)
  hashtags : List String
  types : List String
  date_from : Option Int
  date_to : Option Int
  has_url : Bool
  has_media : Bool
  no_media : Bool
  limit : Option Nat

/-- Embedding of `ExportWorker._matches_filters`
(telegram_notion_gui.py, lines 261-311). The has_url clause probes with
the broad pattern `https?://\S+`, not with `_extract_urls`. -/
def ExportWorker_matches_filters (m : Message) (f : GuiFilters) : Bool :=
  let text := effText m
  let msg_type := ExportWorker_get_message_type m
  if (match f.word with | some p => !(p text) | none => false) then false
  else if (!f.hashtags.isEmpty &&
      !((f.hashtags.map String.toLower).any
        (fun t => ((findallHashtags text.data.length text.data).map
          String.toLower).contains t))) then false
  else if (!f.types.isEmpty && !(f.types.contains msg_type)) then false
  else if (match f.date_from with
      | some d => decide (m.date < d)
      | none => false) then false
  else if (match f.date_to with
      | some d => decide (d < m.date)
      | none => false) then false
  else if (f.has_url && (ExportWorker_url_filter_findall text).isEmpty)
    then false
  else if (f.has_media && (msg_type == "Text" || msg_type == "Other"))
    then false
  else if (f.no_media && msg_type != "Text") then false
  else true

/-- Truthiness test `args.limit and len(messages) >= args.limit` for the
limit break in both scan loops (`None` and `0` are falsy). -/
def limitReached (limit : Option Nat) (n : Nat) : Bool :=
  match limit with
  | some l => l != 0 && decide (l ≤ n)
  | none => false

/-- Final state of the CLI scan loop: `total_fetched`, `skipped`,
the matched buffer, and a ghost trace of every message that was handed
to the filter predicate (in the order tested). -/
structure ScanResult where
  total_fetched : Nat
  skipped : Nat
  messages : List Message
  tested : List Message
deriving Repr

/-- Embedding of the fetch-and-filter loop of `export_saved_messages`
(telegram_to_notion.py, lines 631-648), parametric in the filter
predicate: per pulled item bump `total_fetched`; while `skipped <
args.skip` discard unconditionally; otherwise run the filter (recorded
in the ghost trace), append a match, and break once the limit is
reached. -/
def scanLoop (flt : Message → Bool) (skipArg : Nat) (limit : Option Nat) :
    List Message → Nat → Nat → List Message → List Message → ScanResult
  | [], tf, sk, ms, ts => ⟨tf, sk, ms, ts⟩
  | m :: rest, tf, sk, ms, ts =>
    if sk < skipArg then
      scanLoop flt skipArg limit rest (tf + 1) (sk + 1) ms ts
    else
      if flt m then
        if limitReached limit (ms ++ [m]).length then
          ⟨tf + 1, sk, ms ++ [m], ts ++ [m]⟩
        else
          scanLoop flt skipArg limit rest (tf + 1) sk (ms ++ [m]) (ts ++ [m])
      else
        scanLoop flt skipArg limit rest (tf + 1) sk ms (ts ++ [m])

/-- CLI scan entry point: counters start at zero, buffers empty. -/
def export_scan (flt : Message → Bool) (skipArg : Nat) (limit : Option Nat)
    (stream : List Message) : ScanResult :=
  scanLoop flt skipArg limit stream 0 0 [] []

/-- Embedding of the fetch-and-filter loop of `ExportWorker._export`
(telegram_notion_gui.py, lines 217-231), parametric in the filter: the
cancellation flag is checked after each pull and aborts the whole run
(`none`); otherwise bump `total_scanned`, run the filter, append a
match, and break once the limit is reached. Returns
(pulled, total_scanned, matched buffer or abort). -/
def ExportWorker_scanLoop (cancelled : Bool) (flt : Message → Bool)
    (limit : Option Nat) :
    List Message → Nat → List Message → Nat × Nat × Option (List Message)
  | [], ts, ms => (ts, ts, some ms)
  | m :: rest, ts, ms =>
    if cancelled then (ts + 1, ts, none)
    else
      if flt m then
        if limitReached limit (ms ++ [m]).length then
          (ts + 1, ts + 1, some (ms ++ [m]))
        else
          ExportWorker_scanLoop cancelled flt limit rest (ts + 1) (ms ++ [m])
      else
        ExportWorker_scanLoop cancelled flt limit rest (ts + 1) ms

/-- Embedding of the body-content step shared by `create_notion_page`
(telegram_to_notion.py, lines 262-276) and `ExportWorker._export_to_notion`
(telegram_notion_gui.py, lines 386-395): when the text is non-empty and
longer than 100 characters, the blocks are the slices `text[i:i+2000]`
for `i in range(0, len(text), 2000)`, i.e. `i = 2000*k` for
`k < ceil(len(text)/2000)`; otherwise no body blocks. The text is its
character sequence. -/
def notion_body_blocks (text : List Char) : List (List Char) :=
  if text ≠ [] ∧ 100 < text.length then
    (List.range ((text.length + 1999) / 2000)).map
      (fun i => (text.drop (2000 * i)).take 2000)
  else []

/-- Shape of one entry of the JSON sink (telegram_notion_gui.py,
lines 422-429); the ISO date is modelled by the instant. -/
structure JsonRecord where
  id : Int
  date : Int
  type : String
  text : String
  urls : List String
  hashtags : List String
deriving DecidableEq, Repr

/-- Record built for one message by `ExportWorker._export_to_json`. -/
def ExportWorker_json_record (m : Message) : JsonRecord :=
  { id := m.id, date := m.date, type := ExportWorker_get_message_type m,
    text := effText m, urls := ExportWorker_extract_urls (effText m),
    hashtags := ExportWorker_extract_hashtags (effText m) }

/-- Embedding of `ExportWorker._export_to_json` (telegram_notion_gui.py,
lines 415-435): one record per message of `reversed(messages)`, a single
bulk write (the written array is the first component), and the return
value `(len(messages), 0)`. The method body never reads the worker's
cancellation flag; the `cancelled` parameter records the ambient flag
state of the worker object. -/
def ExportWorker_export_to_json (cancelled : Bool) (msgs : List Message) :
    List JsonRecord × Nat × Nat :=
  ((msgs.reverse).map ExportWorker_json_record, msgs.length, 0)

/-- Row built for one message by `ExportWorker._export_to_csv`. -/
def ExportWorker_csv_row (m : Message) : List String :=
  [toString m.id, toString m.date, ExportWorker_get_message_type m,
   effText m,
   String.intercalate ", " (ExportWorker_extract_urls (effText m)),
   String.intercalate ", " (ExportWorker_extract_hashtags (effText m))]

/-- Embedding of `ExportWorker._export_to_csv` (telegram_notion_gui.py,
lines 437-458): header row, one row per message of `reversed(messages)`,
single bulk write, return `(len(messages), 0)`; the body never reads the
cancellation flag. -/
def ExportWorker_export_to_csv (cancelled : Bool) (msgs : List Message) :
    List (List String) × Nat × Nat :=
  (["ID", "Date", "Type", "Text", "URLs", "Hashtags"] ::
    (msgs.reverse).map ExportWorker_csv_row, msgs.length, 0)

/-- One per-message section of the Markdown sink: heading kind and date,
raw body text, optional link list. -/
structure MdSection where
  kind : String
  date : Int
  body : String
  links : List String
deriving DecidableEq, Repr

/-- Section built for one message by `ExportWorker._export_to_markdown`. -/
def ExportWorker_md_section (m : Message) : MdSection :=
  { kind := ExportWorker_get_message_type m, date := m.date,
    body := effText m, links := ExportWorker_extract_urls (effText m) }

/-- Embedding of `ExportWorker._export_to_markdown`
(telegram_notion_gui.py, lines 460-487): a preamble carrying the export
timestamp, one section per message of `reversed(messages)`, single bulk
write, return `(len(messages), 0)`; the body never reads the
cancellation flag. -/
def ExportWorker_export_to_markdown (cancelled : Bool) (now : Int)
    (msgs : List Message) : (Int × List MdSection) × Nat × Nat :=
  ((now, (msgs.reverse).map ExportWorker_md_section), msgs.length, 0)

/-- Per-item loop of `ExportWorker._export_to_notion`
(telegram_notion_gui.py, lines 351-413): break when the cancellation
flag is up, otherwise one create call per message whose outcome is given
by `notionOk`; counts successes and failures. -/
def notionLoop (cancelled : Bool) (notionOk : Message → Bool) :
    List Message → Nat → Nat → Nat × Nat
  | [], s, f => (s, f)
  | m :: rest, s, f =>
    if cancelled then (s, f)
    else if notionOk m then notionLoop cancelled notionOk rest (s + 1) f
    else notionLoop cancelled notionOk rest s (f + 1)

/-- Remote-database sink: iterate `reversed(messages)` through the
per-item loop. -/
def ExportWorker_export_to_notion (cancelled : Bool)
    (notionOk : Message → Bool) (msgs : List Message) : Nat × Nat :=
  notionLoop cancelled notionOk msgs.reverse 0 0

/-- Output format selected in `self.export_settings` (the dispatch's
`else` branch coincides with the notion branch). -/
inductive ExportFormat where
  | notion
  | json
  | csv
  | markdown
deriving DecidableEq, Repr

/-- Aggregate counts of one export run. -/
structure ExportResult where
  matched : Nat
  success : Nat
  failed : Nat
  scanned : Nat
deriving DecidableEq, Repr

/-- Observable trace of one `ExportWorker._export` run: whether it ended
in the fatal authentication branch, whether it was a mid-scan
cancellation return, the counts, the number of items pulled from the
source, and the number of records written to a sink. -/
structure RunTrace where
  fatalAuth : Bool
  cancelledRun : Bool
  result : ExportResult
  pulled : Nat
  written : Nat
deriving DecidableEq, Repr

/-- Python falsiness of the supplied auth code
(`not self._auth_code`: missing or empty). -/
def codeFalsy : Option String → Bool
  | none => true
  | some s => s == ""

/-- Embedding of `ExportWorker._export` (telegram_notion_gui.py,
lines 132-259): when the session is not authorized, the run first waits
for a confirmation code; `cancelled` and `code` are the worker's
cancellation flag and code slot when that wait ends, and
`self._is_cancelled or not self._auth_code` aborts the run with the
authentication error before anything is pulled. A sign-in failure
(`signInOk = false`, covering the 2FA and connection-error paths) also
aborts before the scan. Otherwise the run scans the stream and
dispatches the matched buffer to the sink selected by `fmt`; per-create
outcomes of the remote-database sink are given by `notionOk`. -/
def ExportWorker_export_run (authorized cancelled : Bool)
    (code : Option String) (signInOk : Bool) (flt : Message → Bool)
    (limit : Option Nat) (fmt : ExportFormat) (notionOk : Message → Bool)
    (now : Int) (stream : List Message) : RunTrace :=
  if !authorized && (cancelled || codeFalsy code) then
    { fatalAuth := true, cancelledRun := false,
      result := ⟨0, 0, 0, 0⟩, pulled := 0, written := 0 }
  else if !authorized && !signInOk then
    { fatalAuth := true, cancelledRun := false,
      result := ⟨0, 0, 0, 0⟩, pulled := 0, written := 0 }
  else
    match ExportWorker_scanLoop cancelled flt limit stream 0 [] with
    | (pulled, _, none) =>
      { fatalAuth := false, cancelledRun := true,
        result := ⟨0, 0, 0, 0⟩, pulled := pulled, written := 0 }
    | (pulled, scanned, some matched) =>
      if matched.isEmpty then
        { fatalAuth := false, cancelledRun := false,
          result := ⟨0, 0, 0, scanned⟩, pulled := pulled, written := 0 }
      else
        match fmt with
        | .notion =>
          { fatalAuth := false, cancelledRun := false,
            result := ⟨matched.length,
              (ExportWorker_export_to_notion cancelled notionOk matched).1,
              (ExportWorker_export_to_notion cancelled notionOk matched).2,
              scanned⟩,
            pulled := pulled,
            written :=
              (ExportWorker_export_to_notion cancelled notionOk matched).1 }
        | .json =>
          { fatalAuth := false, cancelledRun := false,
            result := ⟨matched.length,
              (ExportWorker_export_to_json cancelled matched).2.1,
              (ExportWorker_export_to_json cancelled matched).2.2, scanned⟩,
            pulled := pulled,
            written := (ExportWorker_export_to_json cancelled matched).1.length }
        | .csv =>
          { fatalAuth := false, cancelledRun := false,
            result := ⟨matched.length,
              (ExportWorker_export_to_csv cancelled matched).2.1,
              (ExportWorker_export_to_csv cancelled matched).2.2, scanned⟩,
            pulled := pulled,
            written :=
              ((ExportWorker_export_to_csv cancelled matched).1.length - 1) }
        | .markdown =>
          { fatalAuth := false, cancelledRun := false,
            result := ⟨matched.length,
              (ExportWorker_export_to_markdown cancelled now matched).2.1,
              (ExportWorker_export_to_markdown cancelled now matched).2.2,
              scanned⟩,
            pulled := pulled,
            written :=
              (ExportWorker_export_to_markdown cancelled now matched).1.2.length }

/-- Text-only message builder used for concrete check inputs. -/
def mkTextMsg (i d : Int) (s : String) : Message :=
  { id := i, date := d, photo := false, video := false, document := false,
    audio := false, voice := false, sticker := false, animation := false,
    poll := false, location := false, contact := false,
    text := some s, caption := none }

/-- CLI argument record with every filter unset. -/
def emptyArgs : Args :=
  { word := none, hashtag := [], type := [], days := none, after := none,
    before := none, has_url := false, has_media := false, no_media := false,
    limit := none, skip := 0 }

/-- CLI arguments with only the hashtag filter set. -/
def hashtagOnlyArgs (req : List String) : Args :=
  { emptyArgs with hashtag := req }

/-- CLI arguments with only the has_url flag set. -/
def hasUrlOnlyArgs : Args :=
  { emptyArgs with has_url := true }

/-- CLI arguments with only the days filter set (to one day). -/
def daysOnlyArgs : Args :=
  { emptyArgs with days := some 1 }

/-- GUI filter record with every filter unset. -/
def emptyGuiFilters : GuiFilters :=
  { word := none, hashtags := [], types := [], date_from := none,
    date_to := none, has_url := false, has_media := false,
    no_media := false, limit := none }

/-- GUI filters with only the hashtag filter set. -/
def guiHashtagOnly (req : List String) : GuiFilters :=
  { emptyGuiFilters with hashtags := req }

/-- GUI filters with only the has_url flag set. -/
def guiHasUrlOnly : GuiFilters :=
  { emptyGuiFilters with has_url := true }

/-- Recursive reformulation of the 2000-character chunking, used to prove
properties of `notion_body_blocks`. -/
def chunksRec (l : List Char) : List (List Char) :=
  if h : l = [] then [] else l.take 2000 :: chunksRec (l.drop 2000)
termination_by l.length
decreasing_by
  simp only [List.length_drop]
  exact Nat.sub_lt (List.length_pos.mpr h) (by norm_num)

/-- Lengths of the 2000-character chunks of a text of length `n`. -/
def lengthsRec (n : Nat) : List Nat :=
  if n = 0 then [] else min 2000 n :: lengthsRec (n - 2000)
termination_by n
decreasing_by omega
theorem kind_chain_eq_find (b1 b2 b3 b4 b5 b6 b7 b8 b9 b10 b11 : Bool) :
    (if b1 then "Photo"
     else if b2 then "Video"
     else if b3 then "Document"
     else if b4 then "Audio"
     else if b5 then "Voice"
     else if b6 then "Sticker"
     else if b7 then "GIF"
     else if b8 then "Poll"
     else if b9 then "Location"
     else if b10 then "Contact"
     else if b11 then "Text"
     else "Other")
    = ((List.find? (fun r => r.1)
        [(b1, "Photo"), (b2, "Video"), (b3, "Document"), (b4, "Audio"),
         (b5, "Voice"), (b6, "Sticker"), (b7, "GIF"), (b8, "Poll"),
         (b9, "Location"), (b10, "Contact"), (b11, "Text")]).elim
        "Other" (fun r => r.2)) := by
  revert b1 b2 b3 b4 b5 b6 b7 b8 b9 b10 b11
  decide

/-- C1: for every message the kind classifier (both the CLI and the GUI
copy) agrees with the spec's fixed-precedence first-match classification
over the order Photo, Video, Document, Audio, Voice, Sticker, GIF, Poll,
Location, Contact, Text, else Other; in particular a message carrying a
photo attachment classifies as Photo regardless of any caption text. -/
theorem kind_classification_first_match (m : Message) :
    get_message_type m = specKindClassifier m ∧
    ExportWorker_get_message_type m = get_message_type m ∧
    (m.photo = true → get_message_type m = "Photo") := by
  refine ⟨?_, rfl, ?_⟩
  · exact kind_chain_eq_find m.photo m.video m.document m.audio m.voice
      m.sticker m.animation m.poll m.location m.contact (optTruthy m.text)
  · intro h
    simp [get_message_type, h]

/-- Witness for C1: a concrete message with both a photo attachment and a
caption classifies as Photo, never Text. -/
theorem kind_classification_first_match_witness :
    get_message_type
      { id := 1, date := 0, photo := true, video := false,
        document := false, audio := false, voice := false, sticker := false,
        animation := false, poll := false, location := false,
        contact := false, text := none, caption := some "hello #a" }
      = "Photo" :=
  (kind_classification_first_match _).2.2 rfl


theorem range_chunks_eq_chunksRec : ∀ (n : Nat) (l : List Char), l.length ≤ n →
    (List.range ((l.length + 1999) / 2000)).map
      (fun i => (l.drop (2000 * i)).take 2000) = chunksRec l := by
  intro n
  induction n with
  | zero =>
    intro l hl
    have hnil : l = [] := List.length_eq_zero.mp (Nat.le_zero.mp hl)
    subst hnil
    simp [chunksRec]
  | succ n ih =>
    intro l hl
    by_cases h : l = []
    · subst h; simp [chunksRec]
    · have hpos : 0 < l.length := List.length_pos.mpr h
      rw [chunksRec, dif_neg h]
      have hcount : (l.length + 1999) / 2000 = ((l.drop 2000).length + 1999) / 2000 + 1 := by
        simp only [List.length_drop]
        omega
      rw [hcount, List.range_succ_eq_map, List.map_cons, List.map_map]
      congr 1
      have ih2 := ih (l.drop 2000) (by simp only [List.length_drop]; omega)
      have hfun : ((fun i => List.take 2000 (List.drop (2000 * i) l)) ∘ Nat.succ)
          = (fun i => List.take 2000 (List.drop (2000 * i) (List.drop 2000 l))) := by
        funext i
        simp only [Function.comp_apply, List.drop_drop]
        congr 2
        omega
      rw [hfun]
      exact ih2

theorem chunksRec_flatten : ∀ l, (chunksRec l).flatten = l := by
  intro l
  induction l using chunksRec.induct with
  | case1 => simp [chunksRec]
  | case2 l h ih =>
    rw [chunksRec, dif_neg h]
    simp [ih]

theorem chunksRec_ne_nil (l : List Char) (h : l ≠ []) : chunksRec l ≠ [] := by
  rw [chunksRec, dif_neg h]
  simp

theorem chunksRec_mem_length : ∀ l, ∀ c ∈ chunksRec l, 0 < c.length ∧ c.length ≤ 2000 := by
  intro l
  induction l using chunksRec.induct with
  | case1 => simp [chunksRec]
  | case2 l h ih =>
    rw [chunksRec, dif_neg h]
    intro c hc
    rcases List.mem_cons.mp hc with hc | hc
    · subst hc
      have : 0 < l.length := List.length_pos.mpr h
      simp only [List.length_take]
      omega
    · exact ih c hc

theorem chunksRec_dropLast : ∀ l, ∀ c ∈ (chunksRec l).dropLast, c.length = 2000 := by
  intro l
  induction l using chunksRec.induct with
  | case1 => simp [chunksRec]
  | case2 l h ih =>
    rw [chunksRec, dif_neg h]
    by_cases hd : l.drop 2000 = []
    · rw [hd]
      simp [chunksRec]
    · rw [List.dropLast_cons_of_ne_nil (chunksRec_ne_nil _ hd)]
      intro c hc
      rcases List.mem_cons.mp hc with hc | hc
      · subst hc
        have h2 : 2000 < l.length := by
          by_contra hle
          exact hd (List.drop_eq_nil_of_le (by omega))
        simp only [List.length_take]
        omega
      · exact ih c hc

theorem chunksRec_map_length : ∀ l, (chunksRec l).map List.length = lengthsRec l.length := by
  intro l
  induction l using chunksRec.induct with
  | case1 => simp [chunksRec, lengthsRec]
  | case2 l h ih =>
    rw [chunksRec, dif_neg h, lengthsRec]
    have : ¬(l.length = 0) := by
      have := List.length_pos.mpr h
      omega
    rw [if_neg this]
    simp [ih, Nat.min_comm]

theorem lengthsRec_4200 : lengthsRec 4200 = [2000, 2000, 200] := by
  rw [lengthsRec]
  norm_num
  rw [lengthsRec]
  norm_num
  rw [lengthsRec]
  norm_num
  rw [lengthsRec]
  norm_num

/-- C7: body blocks are attached exactly when the text is non-empty and
strictly longer than 100 characters, and then the text is split into
consecutive non-overlapping chunks of at most 2000 characters in original
order, only the last possibly shorter: length 4200 gives blocks of
lengths [2000, 2000, 200], length 90 gives no blocks. -/
theorem body_blocks_chunking (text : List Char) :
    ((notion_body_blocks text).flatten
        = if 100 < text.length then text else []) ∧
    (notion_body_blocks text ≠ [] ↔ 100 < text.length) ∧
    (∀ c ∈ notion_body_blocks text, 0 < c.length ∧ c.length ≤ 2000) ∧
    (∀ c ∈ (notion_body_blocks text).dropLast, c.length = 2000) ∧
    (text.length = 4200 →
      (notion_body_blocks text).map List.length = [2000, 2000, 200]) ∧
    (text.length = 90 → notion_body_blocks text = []) := by
  by_cases hg : 100 < text.length
  · have hne : text ≠ [] := by
      intro he
      rw [he] at hg
      simp at hg
    have hb : notion_body_blocks text = chunksRec text := by
      rw [notion_body_blocks, if_pos ⟨hne, hg⟩]
      exact range_chunks_eq_chunksRec text.length text le_rfl
    refine ⟨?_, ?_, ?_, ?_, ?_, ?_⟩
    · rw [hb, chunksRec_flatten, if_pos hg]
    · rw [hb]
      exact ⟨fun _ => hg, fun _ => chunksRec_ne_nil text hne⟩
    · rw [hb]
      exact chunksRec_mem_length text
    · rw [hb]
      exact chunksRec_dropLast text
    · intro h4
      rw [hb, chunksRec_map_length, h4, lengthsRec_4200]
    · intro h9
      omega
  · have hb : notion_body_blocks text = [] := by
      rw [notion_body_blocks, if_neg]
      rintro ⟨_, hc⟩
      exact hg hc
    refine ⟨?_, ?_, ?_, ?_, ?_, ?_⟩
    · rw [hb, if_neg hg]
      rfl
    · rw [hb]
      simp [hg]
    · rw [hb]
      simp
    · rw [hb]
      simp
    · intro h4
      rw [h4] at hg
      omega
    · intro _
      exact hb

/-- Witness for C7: a concrete 4200-character text yields exactly the
three blocks of lengths 2000, 2000 and 200. -/
theorem body_blocks_chunking_witness :
    (notion_body_blocks (List.replicate 4200 'a')).map List.length
      = [2000, 2000, 200] :=
  (body_blocks_chunking _).2.2.2.2.1 (List.length_replicate 4200 'a')

/-- C8: the JSON sink writes exactly one record per matched message, of
the fixed shape id/date/type/text/urls/hashtags, in the reverse of the
gathered (newest-first) order, hence chronological oldest-first. -/
theorem json_sink_roundtrip (msgs : List Message) :
    (ExportWorker_export_to_json false msgs).1.length = msgs.length ∧
    (∀ k, k < msgs.length →
      (ExportWorker_export_to_json false msgs).1[k]? =
        (msgs[msgs.length - 1 - k]?).map ExportWorker_json_record) ∧
    ((msgs.map Message.date).Pairwise (· ≥ ·) →
      ((ExportWorker_export_to_json false msgs).1.map
        JsonRecord.date).Pairwise (· ≤ ·)) := by
  refine ⟨by simp [ExportWorker_export_to_json], ?_, ?_⟩
  · intro k hk
    simp only [ExportWorker_export_to_json]
    rw [List.getElem?_map, List.getElem?_reverse (by simpa using hk)]
  · intro hsorted
    simp only [ExportWorker_export_to_json, List.map_map]
    have : (JsonRecord.date ∘ ExportWorker_json_record) = Message.date := by
      funext m
      rfl
    rw [this, List.map_reverse, List.pairwise_reverse]
    exact hsorted.imp (fun h => h)

/-- Witness for C8: on a concrete two-message list the first JSON entry
is the record of the last (oldest) gathered message. -/
theorem json_sink_roundtrip_witness :
    (ExportWorker_export_to_json false
        [mkTextMsg 1 50 "new", mkTextMsg 2 40 "old"]).1[0]? =
      some (ExportWorker_json_record (mkTextMsg 2 40 "old")) := by
  have h := (json_sink_roundtrip
    [mkTextMsg 1 50 "new", mkTextMsg 2 40 "old"]).2.1 0 (by norm_num)
  simpa using h

/-- C9: when cancellation is signalled (or the supplied code is missing
or empty) while the run waits for the authentication code, the run ends
in the fatal authentication branch before any message is pulled or
written, and all counts are zero. -/
theorem auth_cancel_aborts_run (cancelled : Bool) (code : Option String)
    (signInOk : Bool) (flt : Message → Bool) (limit : Option Nat)
    (fmt : ExportFormat) (notionOk : Message → Bool) (now : Int)
    (stream : List Message)
    (h : cancelled = true ∨ code = none ∨ code = some "") :
    ExportWorker_export_run false cancelled code signInOk flt limit fmt
        notionOk now stream
      = { fatalAuth := true, cancelledRun := false,
          result := ⟨0, 0, 0, 0⟩, pulled := 0, written := 0 } := by
  rcases h with h | h | h <;> subst h <;>
    simp [ExportWorker_export_run, codeFalsy]

/-- Witness for C9: a concrete cancelled handshake over a non-empty
stream aborts with zero counts, zero pulled, zero written. -/
theorem auth_cancel_aborts_run_witness :
    ExportWorker_export_run false true none true (fun _ => true) none
        ExportFormat.json (fun _ => true) 0 [mkTextMsg 1 0 "x"]
      = { fatalAuth := true, cancelledRun := false,
          result := ⟨0, 0, 0, 0⟩, pulled := 0, written := 0 } :=
  auth_cancel_aborts_run true none true (fun _ => true) none
    ExportFormat.json (fun _ => true) 0 [mkTextMsg 1 0 "x"] (Or.inl rfl)

/-- C10: the JSON, CSV and Markdown sink writers are unaffected by the
cancellation flag; each writes every matched message (one record, row or
section per message, plus the CSV header) and returns success equal to
the number of matched messages and zero failures. -/
theorem file_sinks_ignore_cancellation (flag : Bool) (now : Int)
    (msgs : List Message) :
    ExportWorker_export_to_json flag msgs
        = ExportWorker_export_to_json false msgs ∧
    ExportWorker_export_to_csv flag msgs
        = ExportWorker_export_to_csv false msgs ∧
    ExportWorker_export_to_markdown flag now msgs
        = ExportWorker_export_to_markdown false now msgs ∧
    (ExportWorker_export_to_json flag msgs).1
        = msgs.reverse.map ExportWorker_json_record ∧
    (ExportWorker_export_to_json flag msgs).1.length = msgs.length ∧
    (ExportWorker_export_to_json flag msgs).2 = (msgs.length, 0) ∧
    (ExportWorker_export_to_csv flag msgs).1
        = ["ID", "Date", "Type", "Text", "URLs", "Hashtags"] ::
            msgs.reverse.map ExportWorker_csv_row ∧
    (ExportWorker_export_to_csv flag msgs).1.length = msgs.length + 1 ∧
    (ExportWorker_export_to_csv flag msgs).2 = (msgs.length, 0) ∧
    (ExportWorker_export_to_markdown flag now msgs).1.2
        = msgs.reverse.map ExportWorker_md_section ∧
    (ExportWorker_export_to_markdown flag now msgs).1.2.length = msgs.length ∧
    (ExportWorker_export_to_markdown flag now msgs).2 = (msgs.length, 0) := by
  refine ⟨rfl, rfl, rfl, rfl, ?_, rfl, rfl, ?_, rfl, rfl, ?_, rfl⟩ <;>
    simp [ExportWorker_export_to_json, ExportWorker_export_to_csv,
      ExportWorker_export_to_markdown]

/-- Behaviour of the CLI scan loop once the skip budget is exhausted:
the skipped counter stays put and the filter-test trace extends by a
prefix of the remaining stream, non-empty when the stream is. -/
theorem scanLoop_post (flt : Message → Bool) (skipArg : Nat)
    (limit : Option Nat) :
    ∀ (stream : List Message) (tf sk : Nat) (ms ts : List Message),
    skipArg ≤ sk →
    (scanLoop flt skipArg limit stream tf sk ms ts).skipped = sk ∧
    ∃ k, k ≤ stream.length ∧
      (scanLoop flt skipArg limit stream tf sk ms ts).tested
        = ts ++ stream.take k ∧
      (stream = [] ∨ 1 ≤ k) := by
  intro stream
  induction stream with
  | nil =>
    intro tf sk ms ts _
    exact ⟨rfl, 0, by simp, by simp [scanLoop]⟩
  | cons m rest ih =>
    intro tf sk ms ts h
    rw [scanLoop, if_neg (by omega)]
    by_cases hf : flt m
    · rw [if_pos hf]
      by_cases hl : limitReached limit (ms ++ [m]).length = true
      · rw [if_pos hl]
        exact ⟨rfl, 1, by simp, by simp, Or.inr le_rfl⟩
      · rw [if_neg hl]
        obtain ⟨hs, k, hk, ht, _⟩ := ih (tf + 1) sk (ms ++ [m]) (ts ++ [m]) h
        refine ⟨hs, k + 1, by simpa using hk, ?_, Or.inr (by omega)⟩
        rw [ht]
        simp
    · rw [if_neg hf]
      obtain ⟨hs, k, hk, ht, _⟩ := ih (tf + 1) sk ms (ts ++ [m]) h
      refine ⟨hs, k + 1, by simpa using hk, ?_, Or.inr (by omega)⟩
      rw [ht]
      simp

/-- Behaviour of the CLI scan loop in a partially consumed skip phase:
the remaining skip budget is discharged unconditionally before any
filter test. -/
theorem scanLoop_skip_phase (flt : Message → Bool) (skipArg : Nat)
    (limit : Option Nat) :
    ∀ (stream : List Message) (tf sk : Nat) (ms ts : List Message),
    sk ≤ skipArg →
    (scanLoop flt skipArg limit stream tf sk ms ts).skipped
        = sk + min (skipArg - sk) stream.length ∧
    ∃ k, k ≤ (stream.drop (skipArg - sk)).length ∧
      (scanLoop flt skipArg limit stream tf sk ms ts).tested
        = ts ++ (stream.drop (skipArg - sk)).take k ∧
      (stream.drop (skipArg - sk) = [] ∨ 1 ≤ k) := by
  intro stream
  induction stream with
  | nil =>
    intro tf sk ms ts _
    refine ⟨by simp [scanLoop], 0, by simp, by simp [scanLoop], Or.inl (List.drop_nil)⟩
  | cons m rest ih =>
    intro tf sk ms ts h
    by_cases hsk : sk < skipArg
    · rw [scanLoop, if_pos hsk]
      obtain ⟨hs, k, hk, ht, hd⟩ := ih (tf + 1) (sk + 1) ms ts (by omega)
      have harith : skipArg - sk = (skipArg - (sk + 1)) + 1 := by omega
      have hdrop : (m :: rest).drop (skipArg - sk)
          = rest.drop (skipArg - (sk + 1)) := by
        rw [harith]
        rfl
      refine ⟨?_, k, ?_, ?_, ?_⟩
      · rw [hs]
        simp only [List.length_cons]
        omega
      · rw [hdrop]
        exact hk
      · rw [hdrop]
        exact ht
      · rw [hdrop]
        exact hd
    · have heq : skipArg - sk = 0 := by omega
      rw [heq]
      simp only [List.drop_zero]
      have hpost := scanLoop_post flt skipArg limit (m :: rest) tf sk ms ts
        (by omega)
      refine ⟨?_, hpost.2⟩
      rw [hpost.1]
      simp [heq]

/-- Taking at least one element preserves the head. -/
theorem head?_take_pos {α : Type} (l : List α) {k : Nat} (hk : 1 ≤ k) :
    (l.take k).head? = l.head? := by
  cases l with
  | nil => simp
  | cons a t =>
    cases k with
    | zero => omega
    | succ k => simp

/-- C2: the CLI scan discards exactly the first `min skip length` pulled
items unconditionally (the count is independent of the filter), every
filter-tested item lies beyond the first `skip` pulled ones, and the
`(skip+1)`-th pulled item is the first one handed to the filter. -/
theorem skip_discards_unconditionally (flt : Message → Bool)
    (skipArg : Nat) (limit : Option Nat) (stream : List Message) :
    (export_scan flt skipArg limit stream).skipped
        = min skipArg stream.length ∧
    (∃ k, (export_scan flt skipArg limit stream).tested
        = (stream.drop skipArg).take k) ∧
    (skipArg < stream.length →
      (export_scan flt skipArg limit stream).tested.head?
        = stream[skipArg]?) := by
  obtain ⟨hs, k, hk, ht, hd⟩ :=
    scanLoop_skip_phase flt skipArg limit stream 0 0 [] [] (by omega)
  simp only [Nat.sub_zero, List.nil_append, Nat.zero_add] at hs ht hd
  refine ⟨by rw [export_scan, hs], ⟨k, by rw [export_scan, ht]⟩, ?_⟩
  intro hlt
  have hne : stream.drop skipArg ≠ [] := by
    rw [Ne, List.drop_eq_nil_iff]
    omega
  have hk1 : 1 ≤ k := by
    rcases hd with hd | hd
    · exact absurd hd hne
    · exact hd
  rw [export_scan, ht, head?_take_pos _ hk1, List.head?_drop]

/-- Witness for C2: with skip 1 on a concrete two-message stream the
first filter-tested item is the second pulled message. -/
theorem skip_discards_unconditionally_witness :
    (export_scan (fun _ => true) 1 none
      [mkTextMsg 1 0 "a", mkTextMsg 2 0 "b"]).tested.head?
      = [mkTextMsg 1 0 "a", mkTextMsg 2 0 "b"][1]? :=
  (skip_discards_unconditionally (fun _ => true) 1 none
    [mkTextMsg 1 0 "a", mkTextMsg 2 0 "b"]).2.2 (by decide)

/-- Failing the limit break test means the matched count is below the
limit. -/
theorem limitReached_false {L n : Nat} (hL : 1 ≤ L)
    (h : ¬ limitReached (some L) n = true) : n < L := by
  simp only [limitReached, Bool.and_eq_true, bne_iff_ne, Ne,
    decide_eq_true_eq] at h
  by_contra hge
  exact h ⟨by omega, by omega⟩

/-- Passing the limit break test means the limit is reached. -/
theorem limitReached_true {L n : Nat}
    (h : limitReached (some L) n = true) : L ≤ n := by
  simp only [limitReached, Bool.and_eq_true, bne_iff_ne, Ne,
    decide_eq_true_eq] at h
  exact h.2

/-- The CLI scan loop never accumulates more than `L` matches. -/
theorem scanLoop_limit_bound (flt : Message → Bool) (skipArg : Nat)
    (L : Nat) (hL : 1 ≤ L) :
    ∀ (stream : List Message) (tf sk : Nat) (ms ts : List Message),
    ms.length < L →
    (scanLoop flt skipArg (some L) stream tf sk ms ts).messages.length ≤ L := by
  intro stream
  induction stream with
  | nil =>
    intro tf sk ms ts hm
    exact Nat.le_of_lt hm
  | cons m rest ih =>
    intro tf sk ms ts hm
    rw [scanLoop]
    by_cases hsk : sk < skipArg
    · rw [if_pos hsk]
      exact ih (tf + 1) (sk + 1) ms ts hm
    · rw [if_neg hsk]
      by_cases hf : flt m
      · rw [if_pos hf]
        by_cases hl : limitReached (some L) (ms ++ [m]).length = true
        · rw [if_pos hl]
          show (ms ++ [m]).length ≤ L
          simp only [List.length_append, List.length_cons, List.length_nil]
          omega
        · rw [if_neg hl]
          refine ih (tf + 1) sk (ms ++ [m]) (ts ++ [m]) (limitReached_false hL hl)
      · rw [if_neg hf]
        exact ih (tf + 1) sk ms (ts ++ [m]) hm

/-- Once the CLI scan loop reaches `L` matches on a stream, appending
further items to the stream changes nothing: they are never pulled. -/
theorem scanLoop_limit_stop (flt : Message → Bool) (skipArg : Nat)
    (L : Nat) (hL : 1 ≤ L) :
    ∀ (stream ys : List Message) (tf sk : Nat) (ms ts : List Message),
    ms.length < L →
    (scanLoop flt skipArg (some L) stream tf sk ms ts).messages.length = L →
    scanLoop flt skipArg (some L) (stream ++ ys) tf sk ms ts
      = scanLoop flt skipArg (some L) stream tf sk ms ts := by
  intro stream
  induction stream with
  | nil =>
    intro ys tf sk ms ts hm hres
    have : ms.length = L := hres
    omega
  | cons m rest ih =>
    intro ys tf sk ms ts hm hres
    rw [scanLoop] at hres
    rw [List.cons_append]
    conv_lhs => rw [scanLoop]
    conv_rhs => rw [scanLoop]
    by_cases hsk : sk < skipArg
    · rw [if_pos hsk] at hres
      rw [if_pos hsk, if_pos hsk]
      exact ih ys (tf + 1) (sk + 1) ms ts hm hres
    · rw [if_neg hsk] at hres
      rw [if_neg hsk, if_neg hsk]
      by_cases hf : flt m
      · rw [if_pos hf] at hres
        rw [if_pos hf, if_pos hf]
        by_cases hl : limitReached (some L) (ms ++ [m]).length = true
        · rw [if_pos hl] at hres
          rw [if_pos hl, if_pos hl]
        · rw [if_neg hl] at hres
          rw [if_neg hl, if_neg hl]
          exact ih ys (tf + 1) sk (ms ++ [m]) (ts ++ [m])
            (limitReached_false hL hl) hres
      · rw [if_neg hf] at hres
        rw [if_neg hf, if_neg hf]
        exact ih ys (tf + 1) sk ms (ts ++ [m]) hm hres

/-- The GUI scan loop never accumulates more than `L` matches. -/
theorem ExportWorker_scanLoop_limit_bound (flt : Message → Bool)
    (L : Nat) (hL : 1 ≤ L) :
    ∀ (stream : List Message) (ts : Nat) (ms : List Message),
    ms.length < L →
    ∀ msgs, (ExportWorker_scanLoop false flt (some L) stream ts ms).2.2
        = some msgs →
    msgs.length ≤ L := by
  intro stream
  induction stream with
  | nil =>
    intro ts ms hm msgs hres
    obtain rfl : ms = msgs := by simpa [ExportWorker_scanLoop] using hres
    exact Nat.le_of_lt hm
  | cons m rest ih =>
    intro ts ms hm msgs hres
    rw [ExportWorker_scanLoop, if_neg (by simp)] at hres
    by_cases hf : flt m
    · rw [if_pos hf] at hres
      by_cases hl : limitReached (some L) (ms ++ [m]).length = true
      · rw [if_pos hl] at hres
        obtain rfl : ms ++ [m] = msgs := by simpa using hres
        simp only [List.length_append, List.length_cons, List.length_nil]
        omega
      · rw [if_neg hl] at hres
        exact ih (ts + 1) (ms ++ [m]) (limitReached_false hL hl) msgs hres
    · rw [if_neg hf] at hres
      exact ih (ts + 1) ms hm msgs hres

/-- Once the GUI scan loop reaches `L` matches on a stream, appending
further items changes nothing: they are never pulled. -/
theorem ExportWorker_scanLoop_limit_stop (flt : Message → Bool)
    (L : Nat) (hL : 1 ≤ L) :
    ∀ (stream ys : List Message) (ts : Nat) (ms : List Message),
    ms.length < L →
    ∀ msgs, (ExportWorker_scanLoop false flt (some L) stream ts ms).2.2
        = some msgs →
    msgs.length = L →
    ExportWorker_scanLoop false flt (some L) (stream ++ ys) ts ms
      = ExportWorker_scanLoop false flt (some L) stream ts ms := by
  intro stream
  induction stream with
  | nil =>
    intro ys ts ms hm msgs hres hlen
    obtain rfl : ms = msgs := by simpa [ExportWorker_scanLoop] using hres
    omega
  | cons m rest ih =>
    intro ys ts ms hm msgs hres hlen
    rw [ExportWorker_scanLoop, if_neg (by simp)] at hres
    rw [List.cons_append]
    conv_lhs => rw [ExportWorker_scanLoop]
    conv_rhs => rw [ExportWorker_scanLoop]
    rw [if_neg (by simp : ¬(false = true)), if_neg (by simp : ¬(false = true))]
    by_cases hf : flt m
    · rw [if_pos hf] at hres
      rw [if_pos hf, if_pos hf]
      by_cases hl : limitReached (some L) (ms ++ [m]).length = true
      · rw [if_pos hl] at hres
        rw [if_pos hl, if_pos hl]
      · rw [if_neg hl] at hres
        rw [if_neg hl, if_neg hl]
        exact ih ys (ts + 1) (ms ++ [m]) (limitReached_false hL hl)
          msgs hres hlen
    · rw [if_neg hf] at hres
      rw [if_neg hf, if_neg hf]
      exact ih ys (ts + 1) ms hm msgs hres hlen

/-- C3: with limit `L ≥ 1` the matched count of the scan never exceeds
`L`, and as soon as the `L`-th match is collected the pipeline stops
pulling: extending the source stream does not change the run. Holds for
the CLI loop and for the GUI loop. -/
theorem limit_bounds_and_stops_scan (flt : Message → Bool)
    (skipArg L : Nat) (hL : 1 ≤ L) (stream ys : List Message) :
    (export_scan flt skipArg (some L) stream).messages.length ≤ L ∧
    ((export_scan flt skipArg (some L) stream).messages.length = L →
      export_scan flt skipArg (some L) (stream ++ ys)
        = export_scan flt skipArg (some L) stream) ∧
    (∀ msgs,
      (ExportWorker_scanLoop false flt (some L) stream 0 []).2.2 = some msgs →
      msgs.length ≤ L ∧
      (msgs.length = L →
        ExportWorker_scanLoop false flt (some L) (stream ++ ys) 0 []
          = ExportWorker_scanLoop false flt (some L) stream 0 [])) :=
  ⟨scanLoop_limit_bound flt skipArg L hL stream 0 0 [] []
      (by simpa using hL),
   fun h => scanLoop_limit_stop flt skipArg L hL stream ys 0 0 [] []
      (by simpa using hL) h,
   fun msgs hres =>
    ⟨ExportWorker_scanLoop_limit_bound flt L hL stream 0 []
        (by simpa using hL) msgs hres,
     fun hlen => ExportWorker_scanLoop_limit_stop flt L hL stream ys 0 []
        (by simpa using hL) msgs hres hlen⟩⟩

/-- Witness for C3: with limit 1 over a concrete stream, a second
stream item is never pulled. -/
theorem limit_bounds_and_stops_scan_witness :
    export_scan (fun _ => true) 0 (some 1)
        ([mkTextMsg 1 0 "a"] ++ [mkTextMsg 2 0 "b"])
      = export_scan (fun _ => true) 0 (some 1) [mkTextMsg 1 0 "a"] :=
  (limit_bounds_and_stops_scan (fun _ => true) 0 1 (by decide)
    [mkTextMsg 1 0 "a"] [mkTextMsg 2 0 "b"]).2.1 (by decide)

/-- The empty-text guard of `extract_hashtags` is redundant: it always
agrees with the raw scan. -/
theorem extract_hashtags_eq_findall (text : String) :
    extract_hashtags text = findallHashtags text.length text.data := by
  by_cases ht : text = ""
  · subst ht
    rfl
  · rw [extract_hashtags, if_neg ht]
    rfl

/-- C4: with a non-empty required hashtag set, the hashtag filter (CLI
and GUI) passes exactly when at least one required hashtag, compared
lowercase, occurs among the hashtags extracted from the message text:
any-of, not all-of. -/
theorem hashtag_filter_any_of (m : Message) (req : List String)
    (h : req ≠ []) (now : Int) :
    (message_matches_filters m (hashtagOnlyArgs req) now = true ↔
      ∃ t ∈ req, t.toLower
        ∈ (extract_hashtags (effText m)).map String.toLower) ∧
    (ExportWorker_matches_filters m (guiHashtagOnly req) = true ↔
      ∃ t ∈ req, t.toLower
        ∈ (extract_hashtags (effText m)).map String.toLower) := by
  have hne : req.isEmpty = false := by
    simpa [List.isEmpty_iff] using h
  constructor
  · simp [message_matches_filters, hashtagOnlyArgs, emptyArgs, hne,
      List.any_eq_true, List.elem_iff]
  · simp [ExportWorker_matches_filters, guiHashtagOnly, emptyGuiFilters, hne,
      ← extract_hashtags_eq_findall, List.any_eq_true, List.elem_iff]

/-- Witness for C4: a message tagged `#a` matches the required set
`{a, b}`. -/
theorem hashtag_filter_any_of_witness :
    message_matches_filters (mkTextMsg 1 0 "note #a")
        (hashtagOnlyArgs ["a", "b"]) 0 = true :=
  (hashtag_filter_any_of (mkTextMsg 1 0 "note #a") ["a", "b"]
      (by decide) 0).1.mpr
    ⟨"a", by decide,
     List.mem_map_of_mem String.toLower
       (show "a" ∈ extract_hashtags (effText (mkTextMsg 1 0 "note #a"))
        by decide)⟩

/-- Every character of the export URL class is a non-space character. -/
theorem urlChar_nonspace (c : Char) (h : isUrlChar c = true) :
    isNonSpaceChar c = true := by
  simp only [isUrlChar, Bool.or_eq_true, beq_iff_eq, Bool.and_eq_true,
    decide_eq_true_eq] at h
  simp only [isNonSpaceChar, Bool.or_eq_true, beq_iff_eq, Bool.not_eq_true',
    Bool.or_eq_false_iff, beq_eq_false_iff_ne, Ne]
  omega

/-- An empty non-space run forces an empty URL-class run. -/
theorem takeWhile_nil_mono (l : List Char)
    (h : l.takeWhile isNonSpaceChar = []) :
    l.takeWhile isUrlChar = [] := by
  cases l with
  | nil => rfl
  | cons c t =>
    rw [List.takeWhile_cons] at h ⊢
    by_cases hc : isNonSpaceChar c = true
    · rw [if_pos hc] at h
      exact absurd h (by simp)
    · have hu : ¬ isUrlChar c = true := fun hb => hc (urlChar_nonspace c hb)
      rw [if_neg hu]

/-- Where the broad filter pattern finds no URL, the export pattern
finds none either. -/
theorem matchHttpAt_none_mono (l : List Char)
    (h : matchHttpAt isNonSpaceChar l = none) :
    matchHttpAt isUrlChar l = none := by
  rw [matchHttpAt] at h ⊢
  by_cases h8 : l.take 8 = ['h', 't', 't', 'p', 's', ':', '/', '/']
  · rw [if_pos h8] at h ⊢
    by_cases hrA : (l.drop 8).takeWhile isNonSpaceChar = []
    · rw [if_pos (takeWhile_nil_mono _ hrA)]
    · rw [if_neg hrA] at h
      exact absurd h (by simp)
  · rw [if_neg h8] at h ⊢
    by_cases h7 : l.take 7 = ['h', 't', 't', 'p', ':', '/', '/']
    · rw [if_pos h7] at h ⊢
      by_cases hrA : (l.drop 7).takeWhile isNonSpaceChar = []
      · rw [if_pos (takeWhile_nil_mono _ hrA)]
      · rw [if_neg hrA] at h
        exact absurd h (by simp)
    · rw [if_neg h7]

/-- If the broad filter scan finds nothing, the export scan finds
nothing. -/
theorem findallHttp_nil_mono : ∀ (fuel : Nat) (l : List Char),
    findallHttp isNonSpaceChar fuel l = [] →
    findallHttp isUrlChar fuel l = [] := by
  intro fuel
  induction fuel with
  | zero => intro l _; rfl
  | succ fuel ih =>
    intro l h
    cases l with
    | nil => rfl
    | cons c rest =>
      rw [findallHttp] at h ⊢
      cases hA : matchHttpAt isNonSpaceChar (c :: rest) with
      | some x =>
        rw [hA] at h
        simp at h
      | none =>
        rw [hA] at h
        rw [matchHttpAt_none_mono _ hA]
        exact ih rest h

/-- C5 (amended): in the CLI the has_url filter passes exactly when
`extract_urls` finds a URL; in the GUI the filter probes the broader
pattern `https?://\S+`, and export URL extraction finding a URL implies
the filter passes, but not conversely. -/
theorem has_url_filter_vs_extraction :
    (∀ (m : Message) (now : Int),
      message_matches_filters m hasUrlOnlyArgs now = true ↔
        extract_urls (effText m) ≠ []) ∧
    (∀ m : Message,
      ExportWorker_matches_filters m guiHasUrlOnly = true ↔
        ExportWorker_url_filter_findall (effText m) ≠ []) ∧
    (∀ text : String, ExportWorker_extract_urls text ≠ [] →
        ExportWorker_url_filter_findall text ≠ []) := by
  refine ⟨?_, ?_, ?_⟩
  · intro m now
    simp [message_matches_filters, hasUrlOnlyArgs, emptyArgs,
      List.isEmpty_iff]
  · intro m
    simp [ExportWorker_matches_filters, guiHasUrlOnly, emptyGuiFilters,
      List.isEmpty_iff]
  · intro text hB
    intro hA
    apply hB
    rw [ExportWorker_extract_urls]
    by_cases ht : text = ""
    · rw [if_pos ht]
    · rw [if_neg ht]
      exact findallHttp_nil_mono _ _ hA

/-- Counterexample for C5 as stated: on the text `http://~` the GUI
has_url filter passes while the export URL extraction returns no URL. -/
theorem has_url_counterexample :
    ExportWorker_matches_filters (mkTextMsg 1 0 "http://~")
        guiHasUrlOnly = true ∧
    ExportWorker_extract_urls (effText (mkTextMsg 1 0 "http://~")) = [] := by
  decide

/-- Witness for C5: a message whose text holds an extractable URL
passes the CLI has_url filter. -/
theorem has_url_filter_vs_extraction_witness :
    message_matches_filters (mkTextMsg 1 0 "see https://ab")
        hasUrlOnlyArgs 0 = true :=
  (has_url_filter_vs_extraction.1 (mkTextMsg 1 0 "see https://ab") 0).mpr
    (by decide)

/-- Counterexample for C6 as stated: with the days filter set, the CLI
filter consults the evaluation-time clock, and the same
(message, filter) pair evaluates differently at two times. -/
theorem filter_determinism_counterexample :
    message_matches_filters (mkTextMsg 1 100 "hi") daysOnlyArgs 86500 = true ∧
    message_matches_filters (mkTextMsg 1 100 "hi") daysOnlyArgs 86600 = false := by
  decide

/-- C6 (amended): the filter is a pure deterministic function of the
(message, filter) pair whenever the days filter is unset; with days set
it additionally depends on the evaluation time. (The GUI filter takes no
clock at all.) -/
theorem filter_deterministic_without_days (m : Message) (a : Args)
    (h : a.days = none) (now1 now2 : Int) :
    message_matches_filters m a now1 = message_matches_filters m a now2 := by
  simp only [message_matches_filters, h]

/-- Witness for C6: with no days filter, two evaluations at different
times agree on a concrete message. -/
theorem filter_deterministic_without_days_witness :
    message_matches_filters (mkTextMsg 1 0 "x") emptyArgs 5
      = message_matches_filters (mkTextMsg 1 0 "x") emptyArgs 9 :=
  filter_deterministic_without_days (mkTextMsg 1 0 "x") emptyArgs rfl 5 9
